import Mathlib

/-
Verification of the billing trust-ledger core: a shallow embedding of
billing/models.py, billing/services/commission_service.py,
billing/services/trust_token_service.py, billing/services/payout_service.py
and billing/services/audit_service.py.

Modelling conventions:
  - UUIDs are Nat (drawn from a fresh-id counter in the store state).
  - Timestamps are Nat; the current time is passed explicitly to each
    operation (the source reads timezone.now inside one atomic call).
  - Decimal commission rates with 4 decimal places are Int numerators in
    ten-thousandths (rate r is represented by the integer r * 10000).
  - SHA-256 is modelled as an ideal injective hash: the hash value is the
    tuple of fields fed to the hash (the preimage of the raw string built
    by the source), so hash equality coincides with preimage equality.
  - The Django ORM store is an explicit DB state (lists of rows plus a
    fresh-id counter); objects.create followed by save is one row append.
  - transaction.atomic is modelled as: if the wrapped computation raises
    (returns Except.error), the state reverts to the state at entry.
-/

namespace Billing

/-- Token lifecycle states, from TrustToken.Status in billing/models.py. -/
inductive TokenStatus
  | active
  | used
  | expired
  | revoked
  | pending
deriving DecidableEq, Repr

/-- The stored string value of each status, from TrustToken.Status choices. -/
def statusStr : TokenStatus → String
  | .active => "active"
  | .used => "used"
  | .expired => "expired"
  | .revoked => "revoked"
  | .pending => "pending"

/-- The preimage tuple of TrustToken.compute_integrity_hash: the fields
joined into the raw string hashed by the source, in source order
(id, program, coach, athlete, gross, commission, net, rate, status,
idempotency key, server secret).  The hash is modelled as this tuple
itself (ideal injective hash). -/
structure TokenFingerprint where
  id : Nat
  programId : Nat
  coachId : Nat
  athleteId : Nat
  grossAmount : Int
  commissionAmount : Int
  netAmount : Int
  commissionRate : Int
  status : TokenStatus
  idempotencyKey : String
  secretKey : String
deriving DecidableEq, Repr

/-- A TrustToken row, from billing/models.py.  integrity_hash is blank
(none) until the first save computes it. -/
structure TrustToken where
  id : Nat
  programId : Nat
  coachId : Nat
  athleteId : Nat
  grossAmount : Int
  commissionAmount : Int
  netAmount : Int
  commissionRate : Int
  status : TokenStatus
  idempotencyKey : String
  integrityHash : Option TokenFingerprint
  createdByIp : Option String
  usedByIp : Option String
  createdAt : Nat
  expiresAt : Nat
  usedAt : Option Nat
deriving DecidableEq, Repr

/-- TrustToken.compute_integrity_hash: fingerprint over the listed fields
plus the server secret.  Note which stored fields are absent: the two ip
columns, created_at, expires_at, used_at and integrity_hash itself. -/
def computeIntegrityHash (secret : String) (t : TrustToken) : TokenFingerprint :=
  { id := t.id
    programId := t.programId
    coachId := t.coachId
    athleteId := t.athleteId
    grossAmount := t.grossAmount
    commissionAmount := t.commissionAmount
    netAmount := t.netAmount
    commissionRate := t.commissionRate
    status := t.status
    idempotencyKey := t.idempotencyKey
    secretKey := secret }

/-- TrustToken.verify_integrity: stored hash equals the recomputation. -/
def verifyIntegrity (secret : String) (t : TrustToken) : Bool :=
  decide (t.integrityHash = some (computeIntegrityHash secret t))

/-- TrustToken.mark_used: set status, used_at and (when an ip is given)
used_by_ip, then recompute the integrity hash over the updated fields. -/
def markUsed (secret : String) (now : Nat) (ip : Option String) (t : TrustToken) : TrustToken :=
  let t1 := { t with
    status := TokenStatus.used
    usedAt := some now
    usedByIp := match ip with | some s => some s | none => t.usedByIp }
  { t1 with integrityHash := some (computeIntegrityHash secret t1) }

/-- Payout lifecycle states, from Payout.Status in billing/models.py. -/
inductive PayoutStatus
  | pending
  | completed
  | failed
deriving DecidableEq, Repr

/-- A Payout row, from billing/models.py.  The coach foreign key is
nullable; the service stores none when the caller passes a raw id. -/
structure Payout where
  id : Nat
  trustTokenId : Nat
  coachId : Option Nat
  grossAmount : Int
  commissionAmount : Int
  netAmount : Int
  commissionRate : Int
  status : PayoutStatus
  createdAt : Nat
deriving DecidableEq, Repr

/-- Audit actions, from AuditLog.Action in billing/models.py. -/
inductive AuditAction
  | tokenCreated
  | tokenUsed
  | tokenExpired
  | tokenValidationFailed
  | payoutInitiated
  | payoutCreated
  | payoutCompleted
  | payoutFailed
  | bypassAttempt
  | tokenTampered
deriving DecidableEq, Repr

/-- Audit entry hash values: either the genesis sentinel string or the
preimage tuple of AuditLog.compute_hash (id, action, actor_type, actor_id,
request_summary, gross, commission, net, result, previous hash), modelled
as an ideal injective hash.  Note which columns are absent from the
preimage: target_id, details, error_message, entry_hash, created_at. -/
inductive AHash
  | genesis
  | node (id : Nat) (action : AuditAction) (actorType : String)
      (actorId : Option String) (requestSummary : String)
      (grossAmount : Option Int) (commissionAmount : Option Int)
      (netAmount : Option Int) (result : String) (previousHash : AHash)
deriving DecidableEq, Repr

/-- An AuditLog row, from billing/models.py. -/
structure AuditLogEntry where
  id : Nat
  action : AuditAction
  actorType : String
  actorId : Option String
  targetId : Option Nat
  requestSummary : String
  details : String
  result : String
  grossAmount : Option Int
  commissionAmount : Option Int
  netAmount : Option Int
  errorMessage : Option String
  previousHash : AHash
  entryHash : AHash
  createdAt : Nat
deriving DecidableEq, Repr

/-- AuditLog.compute_hash over the entry's own columns and its stored
previous_hash. -/
def computeEntryHash (e : AuditLogEntry) : AHash :=
  AHash.node e.id e.action e.actorType e.actorId e.requestSummary
    e.grossAmount e.commissionAmount e.netAmount e.result e.previousHash

/-- The durable store: token, payout and audit rows plus a counter
supplying fresh ids (uuid4 in the source) and creation timestamps.
Audit rows are kept in chronological (created_at ascending) order. -/
structure DB where
  tokens : List TrustToken
  payouts : List Payout
  audits : List AuditLogEntry
  nextId : Nat
deriving DecidableEq, Repr

/-- The empty store. -/
def DB.empty : DB := { tokens := [], payouts := [], audits := [], nextId := 0 }

/-- TrustToken.objects.get by primary key (first row with the id). -/
def findToken (db : DB) (tid : Nat) : Option TrustToken :=
  db.tokens.find? (fun t => t.id == tid)

/-- TrustToken.objects.filter by idempotency_key, .first(). -/
def findTokenByKey (db : DB) (key : String) : Option TrustToken :=
  db.tokens.find? (fun t => t.idempotencyKey == key)

/-- Persist an updated token row (save by primary key). -/
def updateToken (db : DB) (t : TrustToken) : DB :=
  { db with tokens := db.tokens.map (fun u => if u.id == t.id then t else u) }

/-- The hash of the most recent audit entry, or genesis when the ledger is
empty: what AuditLog.save reads from objects.order_by descending. -/
def lastHash (l : List AuditLogEntry) : AHash :=
  match l.getLast? with
  | some e => e.entryHash
  | none => AHash.genesis

/-- The caller-supplied columns of AuditLog.objects.create. -/
structure AuditInput where
  action : AuditAction
  actorType : String
  actorId : Option String
  result : String
  requestSummary : String := ""
  details : String := ""
  targetId : Option Nat := none
  grossAmount : Option Int := none
  commissionAmount : Option Int := none
  netAmount : Option Int := none
  errorMessage : Option String := none

/-- AuditLog.objects.create followed by AuditLog.save: link previous_hash
to the latest entry (or genesis), compute entry_hash over the new row,
persist at the chronological end. -/
def appendAudit (db : DB) (a : AuditInput) : AuditLogEntry × DB :=
  let e0 : AuditLogEntry :=
    { id := db.nextId
      action := a.action
      actorType := a.actorType
      actorId := a.actorId
      targetId := a.targetId
      requestSummary := a.requestSummary
      details := a.details
      result := a.result
      grossAmount := a.grossAmount
      commissionAmount := a.commissionAmount
      netAmount := a.netAmount
      errorMessage := a.errorMessage
      previousHash := lastHash db.audits
      entryHash := AHash.genesis
      createdAt := db.nextId }
  let e := { e0 with entryHash := computeEntryHash e0 }
  (e, { db with audits := db.audits ++ [e], nextId := db.nextId + 1 })

/-- AuditService.verify_chain_integrity loop: walk entries oldest to
newest with the running previous hash, fail closed at the first entry
whose previous_hash does not match or whose entry_hash does not
recompute. -/
def verifyChainFrom (prev : AHash) : List AuditLogEntry → Bool × Option AuditLogEntry
  | [] => (true, none)
  | e :: rest =>
    if e.previousHash ≠ prev then (false, some e)
    else if e.entryHash ≠ computeEntryHash e then (false, some e)
    else verifyChainFrom e.entryHash rest

/-- AuditService.verify_chain_integrity: start from the genesis sentinel. -/
def verifyChainIntegrity (db : DB) : Bool × Option AuditLogEntry :=
  verifyChainFrom AHash.genesis db.audits

/-- CommissionBreakdown from commission_service.py (rate in
ten-thousandths). -/
structure CommissionBreakdown where
  gross : Int
  commissionAmount : Int
  netAmount : Int
  rate : Int
deriving DecidableEq, Repr

/-- CommissionService.calculate.  The active rate of the global
CommissionConfig is passed explicitly (none when no config is active,
matching the ValueError raised by get_active_rate).  The quantize call
with ROUND_HALF_UP on the exact product gross * rate is the integer
(gross * rate + 5000) / 10000 for the positive operands admitted by the
guards. -/
def calculate (grossAmount : Int) (activeRate : Option Int) : Except String CommissionBreakdown :=
  if grossAmount ≤ 0 then Except.error "Gross amount must be positive"
  else
    match activeRate with
    | none => Except.error "No active commission config found"
    | some rate =>
      if rate ≤ 0 then Except.error "Commission rate must be positive"
      else if rate > 10000 then Except.error "Commission rate cannot exceed 100%"
      else
        let commission : Int := (grossAmount * rate + 5000) / 10000
        Except.ok
          { gross := grossAmount
            commissionAmount := commission
            netAmount := grossAmount - commission
            rate := rate }

/-- The rounding the spec names: round half up of a nonnegative rational
to the nearest integer, written as a floor.  Stated over the exact value
gross * rate with rate = k / 10000. -/
def roundHalfUpSpec (g k : Int) : Int :=
  ⌊(g * k : ℚ) / 10000 + 1 / 2⌋

/-- Validation failure reasons; each constructor carries the exact reason
string returned by trust_token_service.py (see vreasonMsg). -/
inductive VReason
  | okReason
  | notFound
  | notActive (s : TokenStatus)
  | expiredReason
  | integrityFailed
  | coachMismatch
deriving DecidableEq, Repr

/-- The literal reason strings of TokenValidationResult.reason. -/
def vreasonMsg : VReason → String
  | .okReason => ""
  | .notFound => "Token not found"
  | .notActive s => "Token status is " ++ statusStr s
  | .expiredReason => "Token expired"
  | .integrityFailed => "Token integrity check failed"
  | .coachMismatch => "Coach mismatch"

/-- TokenValidationResult from trust_token_service.py. -/
structure TokenValidationResult where
  valid : Bool
  reason : VReason
  token : Option TrustToken
deriving DecidableEq, Repr

/-- TrustTokenService.validate_token on a token object (the id-resolving
entry path is validateTokenById).  Checks run in source order: status,
expiry (inclusive of the boundary: expires_at less than or equal to now is
expired), integrity hash (logging TOKEN_TAMPERED on mismatch), and the
coach check only when a coach id is supplied. -/
def validateToken (secret : String) (db : DB) (t : TrustToken)
    (coachId : Option Nat) (now : Nat) : TokenValidationResult × DB :=
  if t.status ≠ TokenStatus.active then
    ({ valid := false, reason := VReason.notActive t.status, token := none }, db)
  else if t.expiresAt ≤ now then
    ({ valid := false, reason := VReason.expiredReason, token := none }, db)
  else if ¬ (t.integrityHash = some (computeIntegrityHash secret t)) then
    let (_, db1) := appendAudit db
      { action := AuditAction.tokenTampered
        actorType := "system"
        actorId := none
        result := "failure"
        errorMessage := some "Integrity hash mismatch"
        requestSummary := "token_id=" ++ toString t.id }
    ({ valid := false, reason := VReason.integrityFailed, token := none }, db1)
  else
    match coachId with
    | some c =>
      if t.coachId ≠ c then
        ({ valid := false, reason := VReason.coachMismatch, token := none }, db)
      else
        ({ valid := true, reason := VReason.okReason, token := some t }, db)
    | none => ({ valid := true, reason := VReason.okReason, token := some t }, db)

/-- TrustTokenService.validate_token when called with a token id: resolve
the row first, then validate the object. -/
def validateTokenById (secret : String) (db : DB) (tid : Nat)
    (coachId : Option Nat) (now : Nat) : TokenValidationResult × DB :=
  match findToken db tid with
  | none => ({ valid := false, reason := VReason.notFound, token := none }, db)
  | some t => validateToken secret db t coachId now

/-- TokenUseResult from trust_token_service.py. -/
structure TokenUseResult where
  success : Bool
  reason : VReason
  token : Option TrustToken
deriving DecidableEq, Repr

/-- TrustTokenService.use_token: fetch and lock the row, re-validate under
the lock, and on success mark the token used, persist it and append a
TOKEN_USED audit entry.  Failures return a structured result without
raising, so everything written before the return (the TOKEN_TAMPERED
entry) commits. -/
def useToken (secret : String) (db : DB) (tokenId : Nat)
    (coachId : Option Nat) (usedByIp : Option String) (now : Nat) :
    TokenUseResult × DB :=
  match findToken db tokenId with
  | none => ({ success := false, reason := VReason.notFound, token := none }, db)
  | some token =>
    let vd := validateToken secret db token coachId now
    if vd.1.valid = false then
      ({ success := false, reason := vd.1.reason, token := none }, vd.2)
    else
      let t := markUsed secret now usedByIp token
      let db2 := updateToken vd.2 t
      let (_, db3) := appendAudit db2
        { action := AuditAction.tokenUsed
          actorType := "coach"
          actorId := coachId.map toString
          result := "success"
          requestSummary := "token_id=" ++ toString t.id }
      ({ success := true, reason := VReason.okReason, token := some t }, db3)

/-- The keyword arguments of TrustTokenService.create_token. -/
structure CreateArgs where
  coachId : Nat
  athleteId : Nat
  programId : Nat
  grossAmount : Int
  commissionAmount : Int
  netAmount : Int
  commissionRate : Int
  idempotencyKey : String
  createdByIp : Option String := none
  expiresInMinutes : Nat := 10

/-- TrustTokenService.create_token: if a token with the idempotency key
exists, return it unchanged; otherwise persist a new ACTIVE token whose
integrity hash is computed on first save, and append a TOKEN_CREATED
audit entry.  The three amounts are stored exactly as supplied; no
consistency between them is checked. -/
def createToken (secret : String) (db : DB) (a : CreateArgs) (now : Nat) :
    TrustToken × DB :=
  match findTokenByKey db a.idempotencyKey with
  | some existing => (existing, db)
  | none =>
    let t0 : TrustToken :=
      { id := db.nextId
        programId := a.programId
        coachId := a.coachId
        athleteId := a.athleteId
        grossAmount := a.grossAmount
        commissionAmount := a.commissionAmount
        netAmount := a.netAmount
        commissionRate := a.commissionRate
        status := TokenStatus.active
        idempotencyKey := a.idempotencyKey
        integrityHash := none
        createdByIp := a.createdByIp
        usedByIp := none
        createdAt := now
        expiresAt := now + a.expiresInMinutes
        usedAt := none }
    let t := { t0 with integrityHash := some (computeIntegrityHash secret t0) }
    let db1 := { db with tokens := db.tokens ++ [t], nextId := db.nextId + 1 }
    let (_, db2) := appendAudit db1
      { action := AuditAction.tokenCreated
        actorType := "system"
        actorId := some (toString a.athleteId)
        result := "success"
        grossAmount := some a.grossAmount
        commissionAmount := some a.commissionAmount
        netAmount := some a.netAmount
        requestSummary := "coach_id=" ++ toString a.coachId ++ ";athlete_id="
          ++ toString a.athleteId ++ ";program_id=" ++ toString a.programId }
    (t, db2)

/-- PayoutService.create_payout body, before the transaction boundary is
applied: the sequence of checks and writes in source order.  The coach
argument is the raw-id path of the source (coach_obj is then None).
Raising ValueError is returning Except.error with the message. -/
def createPayoutInner (secret : String) (db : DB) (tokenId : Option Nat)
    (coachId : Nat) (now : Nat) : Except String Payout × DB :=
  match tokenId with
  | none => (Except.error "Token ID is required", db)
  | some tid =>
    match findToken db tid with
    | none => (Except.error "Token not found", db)
    | some token =>
      let vd := validateToken secret db token (some coachId) now
      if vd.1.valid = false then
        let (_, db2) := appendAudit vd.2
          { action := AuditAction.payoutInitiated
            actorType := "coach"
            actorId := some (toString coachId)
            result := "failure"
            errorMessage := some (vreasonMsg vd.1.reason)
            requestSummary := "token_id=" ++ toString tid }
        (Except.error (vreasonMsg vd.1.reason), db2)
      else if token.coachId ≠ coachId then
        let (_, db2) := appendAudit vd.2
          { action := AuditAction.bypassAttempt
            actorType := "coach"
            actorId := some (toString coachId)
            result := "blocked"
            errorMessage := some "Coach mismatch"
            requestSummary := "token_id=" ++ toString tid
              ++ ";token_coach_id=" ++ toString token.coachId
              ++ ";attempted_coach_id=" ++ toString coachId }
        (Except.error "Coach mismatch", db2)
      else if vd.2.payouts.any (fun p => p.trustTokenId == tid) then
        (Except.error "Payout already exists for this token", vd.2)
      else if token.commissionRate > 0 ∧ token.commissionAmount = 0 then
        let (_, db2) := appendAudit vd.2
          { action := AuditAction.bypassAttempt
            actorType := "coach"
            actorId := some (toString coachId)
            result := "blocked"
            errorMessage := some "Commission bypass detected"
            requestSummary := "token_id=" ++ toString tid }
        (Except.error "Commission bypass detected", db2)
      else
        let t1 := { token with status := TokenStatus.used, usedAt := some now }
        let t2 := { t1 with integrityHash := some (computeIntegrityHash secret t1) }
        let db2 := updateToken vd.2 t2
        let payout : Payout :=
          { id := db2.nextId
            trustTokenId := tid
            coachId := none
            grossAmount := token.grossAmount
            commissionAmount := token.commissionAmount
            netAmount := token.netAmount
            commissionRate := token.commissionRate
            status := PayoutStatus.completed
            createdAt := db2.nextId }
        let db3 := { db2 with payouts := db2.payouts ++ [payout], nextId := db2.nextId + 1 }
        let (_, db4) := appendAudit db3
          { action := AuditAction.payoutCompleted
            actorType := "coach"
            actorId := some (toString coachId)
            result := "success"
            grossAmount := some token.grossAmount
            commissionAmount := some token.commissionAmount
            netAmount := some token.netAmount
            requestSummary := "payout_id=" ++ toString payout.id
              ++ ";token_id=" ++ toString token.id }
        (Except.ok payout, db4)

/-- PayoutService.create_payout with its transaction.atomic boundary: when
the body raises, every write inside the transaction is rolled back and
the store reverts to the state at entry. -/
def createPayout (secret : String) (db : DB) (tokenId : Option Nat)
    (coachId : Nat) (now : Nat) : Except String Payout × DB :=
  match createPayoutInner secret db tokenId coachId now with
  | (Except.ok p, db1) => (Except.ok p, db1)
  | (Except.error e, _) => (Except.error e, db)

/-- Count of audit entries with a given action. -/
def countAction (l : List AuditLogEntry) (a : AuditAction) : Nat :=
  l.countP (fun e => e.action == a)

/-- Count of payout rows referencing a given token. -/
def countPayoutsFor (db : DB) (tid : Nat) : Nat :=
  db.payouts.countP (fun p => p.trustTokenId == tid)

/-! ### Helper lemmas -/

theorem appendAudit_tokens (db : DB) (a : AuditInput) :
    (appendAudit db a).2.tokens = db.tokens := rfl

theorem appendAudit_payouts (db : DB) (a : AuditInput) :
    (appendAudit db a).2.payouts = db.payouts := rfl

theorem appendAudit_audits (db : DB) (a : AuditInput) :
    (appendAudit db a).2.audits = db.audits ++ [(appendAudit db a).1] := rfl

theorem markUsed_id (secret : String) (now : Nat) (ip : Option String)
    (t : TrustToken) : (markUsed secret now ip t).id = t.id := rfl

theorem markUsed_status (secret : String) (now : Nat) (ip : Option String)
    (t : TrustToken) : (markUsed secret now ip t).status = TokenStatus.used := rfl

/-- validate_token on a valid token: all checks pass and the store is
untouched. -/
theorem validateToken_ok (secret : String) (db : DB) (t : TrustToken)
    (coach : Option Nat) (now : Nat)
    (hstat : t.status = TokenStatus.active) (hexp : now < t.expiresAt)
    (hint : t.integrityHash = some (computeIntegrityHash secret t))
    (hcoach : coach = none ∨ coach = some t.coachId) :
    validateToken secret db t coach now =
      ({ valid := true, reason := VReason.okReason, token := some t }, db) := by
  unfold validateToken
  rw [if_neg (by simp [hstat])]
  rw [if_neg (by omega)]
  rw [if_neg (by simp [hint])]
  rcases hcoach with h | h
  · rw [h]
  · rw [h]
    simp

/-- validate_token fails closed at the first check when the status is not
ACTIVE, reporting that status and writing nothing. -/
theorem validateToken_notActive (secret : String) (db : DB) (t : TrustToken)
    (coach : Option Nat) (now : Nat) (h : t.status ≠ TokenStatus.active) :
    validateToken secret db t coach now =
      ({ valid := false, reason := VReason.notActive t.status, token := none }, db) := by
  unfold validateToken
  rw [if_pos h]

/-- Replacing the row with a given id makes it the row found under that
id, provided some row with the id was present. -/
theorem find?_update (l : List TrustToken) (t' : TrustToken) (tid : Nat)
    (hid : t'.id = tid) (h : (l.find? (fun u => u.id == tid)).isSome) :
    (l.map (fun u => if u.id == t'.id then t' else u)).find?
      (fun u => u.id == tid) = some t' := by
  induction l with
  | nil => simp [List.find?] at h
  | cons x xs ih =>
    by_cases hx : x.id = tid
    · simp only [List.map_cons]
      rw [if_pos (by simp [hid, hx])]
      exact List.find?_cons_of_pos _ (by simp [hid])
    · simp only [List.map_cons]
      rw [if_neg (by simp [hid, hx])]
      rw [List.find?_cons_of_neg _ (by simp [hx])]
      apply ih
      rwa [List.find?_cons_of_neg _ (by simp [hx])] at h

/-! ### C2: commission calculation -/

/-- Claim C2: for a positive gross amount and an active rate r with
0 < r ≤ 1 (represented in ten-thousandths), calculate returns
commission = round half up of gross times r and net = gross minus
commission, so commission plus net is exactly gross; and calculate fails
for non-positive gross. -/
theorem claim_c2_commission (g k : Int) :
    (0 < g → 0 < k → k ≤ 10000 →
      calculate g (some k) = Except.ok
        { gross := g
          commissionAmount := roundHalfUpSpec g k
          netAmount := g - roundHalfUpSpec g k
          rate := k } ∧
      roundHalfUpSpec g k + (g - roundHalfUpSpec g k) = g) ∧
    (g ≤ 0 → ∀ r, calculate g r = Except.error "Gross amount must be positive") := by
  constructor
  · intro hg hk hk2
    have hdiv : (g * k + 5000) / 10000 = roundHalfUpSpec g k := by
      unfold roundHalfUpSpec
      have h1 : (g * k : ℚ) / 10000 + 1 / 2 =
          ((g * k + 5000 : Int) : ℚ) / ((10000 : ℕ) : ℚ) := by
        push_cast
        ring
      rw [h1, Rat.floor_intCast_div_natCast]
      norm_num
    refine ⟨?_, by ring⟩
    show (if g ≤ 0 then
        (Except.error "Gross amount must be positive" : Except String CommissionBreakdown)
      else if k ≤ 0 then Except.error "Commission rate must be positive"
      else if k > 10000 then Except.error "Commission rate cannot exceed 100%"
      else Except.ok ⟨g, (g * k + 5000) / 10000, g - (g * k + 5000) / 10000, k⟩) = _
    rw [if_neg (by omega), if_neg (by omega), if_neg (by omega), hdiv]
  · intro hg r
    unfold calculate
    rw [if_pos hg]

/-- Witness for C2 at the end-to-end example of the spec: gross 10000 at
rate 0.12 gives commission 1200 and net 8800, and gross -5 is rejected. -/
theorem claim_c2_commission_witness :
    calculate 10000 (some 1200) = Except.ok
      { gross := 10000
        commissionAmount := roundHalfUpSpec 10000 1200
        netAmount := 10000 - roundHalfUpSpec 10000 1200
        rate := 1200 } ∧
    calculate (-5) (some 1200) = Except.error "Gross amount must be positive" :=
  ⟨((claim_c2_commission 10000 1200).1 (by norm_num) (by norm_num) (by norm_num)).1,
   (claim_c2_commission (-5) 1200).2 (by norm_num) (some 1200)⟩

/-- use_token on a valid ACTIVE token: the call reports success and the
stored row under that id is the marked-used token. -/
theorem useToken_success_state (secret : String) (db : DB) (tid : Nat)
    (t : TrustToken) (coach : Option Nat) (ip : Option String) (now : Nat)
    (hfind : findToken db tid = some t)
    (hstat : t.status = TokenStatus.active) (hexp : now < t.expiresAt)
    (hint : t.integrityHash = some (computeIntegrityHash secret t))
    (hcoach : coach = none ∨ coach = some t.coachId) :
    (useToken secret db tid coach ip now).1 =
      { success := true, reason := VReason.okReason,
        token := some (markUsed secret now ip t) } ∧
    findToken (useToken secret db tid coach ip now).2 tid =
      some (markUsed secret now ip t) := by
  have hv := validateToken_ok secret db t coach now hstat hexp hint hcoach
  have hid : (markUsed secret now ip t).id = tid := by
    rw [markUsed_id]
    have := List.find?_some hfind
    simpa using this
  have hsome : (db.tokens.find? (fun u => u.id == tid)).isSome := by
    rw [show db.tokens.find? (fun u => u.id == tid) = findToken db tid from rfl, hfind]
    rfl
  constructor
  · simp only [useToken, hfind, hv]
    rfl
  · simp only [useToken, hfind, hv]
    rw [if_neg (by simp)]
    show findToken (appendAudit (updateToken db (markUsed secret now ip t)) _).2 tid = _
    simp only [findToken, appendAudit_tokens, updateToken]
    exact find?_update db.tokens (markUsed secret now ip t) tid hid hsome

/-- use_token on a stored token whose status is not ACTIVE: structured
failure surfacing the status, and the store is untouched. -/
theorem useToken_notActive_state (secret : String) (db : DB) (tid : Nat)
    (t : TrustToken) (coach : Option Nat) (ip : Option String) (now : Nat)
    (hfind : findToken db tid = some t) (h : t.status ≠ TokenStatus.active) :
    useToken secret db tid coach ip now =
      ({ success := false, reason := VReason.notActive t.status, token := none }, db) := by
  have hv := validateToken_notActive secret db t coach now h
  simp only [useToken, hfind, hv]
  rfl

/-! ### C1: sequential single use -/

/-- Claim C1: if use_token succeeds on an ACTIVE, unexpired, untampered
token (with a matching or absent coach id), a second use_token call on
the same token id fails with success false and the TOKEN_NOT_ACTIVE
reason surfacing the used status, and the store (in particular the token
row) is unchanged by the second call. -/
theorem claim_c1_single_use (secret : String) (db : DB) (t : TrustToken)
    (coach coach2 : Option Nat) (ip ip2 : Option String) (now now2 : Nat)
    (hfind : findToken db t.id = some t)
    (hstat : t.status = TokenStatus.active)
    (hexp : now < t.expiresAt)
    (hint : t.integrityHash = some (computeIntegrityHash secret t))
    (hcoach : coach = none ∨ coach = some t.coachId) :
    (useToken secret db t.id coach ip now).1.success = true ∧
    (useToken secret (useToken secret db t.id coach ip now).2 t.id coach2 ip2 now2).1 =
      { success := false, reason := VReason.notActive TokenStatus.used, token := none } ∧
    (useToken secret (useToken secret db t.id coach ip now).2 t.id coach2 ip2 now2).2 =
      (useToken secret db t.id coach ip now).2 := by
  obtain ⟨h1, h2⟩ :=
    useToken_success_state secret db t.id t coach ip now hfind hstat hexp hint hcoach
  have hsecond := useToken_notActive_state secret
    ((useToken secret db t.id coach ip now).2) t.id (markUsed secret now ip t)
    coach2 ip2 now2 h2 (by rw [markUsed_status]; simp)
  refine ⟨by rw [h1], ?_, ?_⟩
  · rw [hsecond]
    rfl
  · rw [hsecond]

/-! ### C10: absent coach id skips the ownership check -/

/-- Claim C10: when validate_token or use_token is called with no coach
id, the coach-ownership check is skipped: an ACTIVE, unexpired,
untampered token validates and can be consumed with no condition on its
coach_id. -/
theorem claim_c10_coach_check_skipped (secret : String) (db : DB)
    (t : TrustToken) (tid : Nat) (ip : Option String) (now : Nat)
    (hstat : t.status = TokenStatus.active)
    (hexp : now < t.expiresAt)
    (hint : t.integrityHash = some (computeIntegrityHash secret t)) :
    (validateToken secret db t none now).1 =
      { valid := true, reason := VReason.okReason, token := some t } ∧
    (findToken db tid = some t → (useToken secret db tid none ip now).1.success = true) := by
  constructor
  · rw [validateToken_ok secret db t none now hstat hexp hint (Or.inl rfl)]
  · intro hfind
    obtain ⟨h1, _⟩ :=
      useToken_success_state secret db tid t none ip now hfind hstat hexp hint (Or.inl rfl)
    rw [h1]

/-! ### Concrete fixtures for witnesses and counterexamples -/

/-- A concrete server secret. -/
def secretW : String := "server-secret"

/-- Concrete creation arguments matching the end-to-end example of the
spec: gross 10000 at rate 0.12 splits into 1200 and 8800. -/
def argsW : CreateArgs :=
  { coachId := 7
    athleteId := 8
    programId := 9
    grossAmount := 10000
    commissionAmount := 1200
    netAmount := 8800
    commissionRate := 1200
    idempotencyKey := "abc" }

/-- The token created from argsW in an empty store at time 100. -/
def tokW : TrustToken := (createToken secretW DB.empty argsW 100).1

/-- The store after that creation. -/
def dbW : DB := (createToken secretW DB.empty argsW 100).2

/-- Witness for C1: a concrete successful use at time 105 followed by a
second use at time 106, which fails with the used status and leaves the
store unchanged. -/
theorem claim_c1_single_use_witness :
    (useToken secretW dbW tokW.id (some 7) (some "3.3.3.3") 105).1.success = true ∧
    (useToken secretW (useToken secretW dbW tokW.id (some 7) (some "3.3.3.3") 105).2
        tokW.id (some 7) none 106).1 =
      { success := false, reason := VReason.notActive TokenStatus.used, token := none } ∧
    (useToken secretW (useToken secretW dbW tokW.id (some 7) (some "3.3.3.3") 105).2
        tokW.id (some 7) none 106).2 =
      (useToken secretW dbW tokW.id (some 7) (some "3.3.3.3") 105).2 :=
  claim_c1_single_use secretW dbW tokW (some 7) (some 7) (some "3.3.3.3") none 105 106
    (by decide) (by decide) (by decide) (by decide) (Or.inr (by decide))

/-- Witness for C10: the concrete token of coach 7 validates and is
consumable with no coach id supplied. -/
theorem claim_c10_coach_check_skipped_witness :
    (validateToken secretW dbW tokW none 105).1 =
      { valid := true, reason := VReason.okReason, token := some tokW } ∧
    (useToken secretW dbW tokW.id none none 105).1.success = true :=
  ⟨(claim_c10_coach_check_skipped secretW dbW tokW tokW.id none 105
      (by decide) (by decide) (by decide)).1,
   (claim_c10_coach_check_skipped secretW dbW tokW tokW.id none 105
      (by decide) (by decide) (by decide)).2 (by decide)⟩

/-! ### C3: idempotent creation -/

/-- create_token on a fresh idempotency key: the store gains exactly one
token row (carrying the key) and one audit row (a TOKEN_CREATED entry). -/
theorem createToken_fresh_shape (secret : String) (db : DB) (a : CreateArgs)
    (now : Nat) (hfresh : findTokenByKey db a.idempotencyKey = none) :
    ∃ t e, createToken secret db a now =
        (t, { tokens := db.tokens ++ [t], payouts := db.payouts,
              audits := db.audits ++ [e], nextId := db.nextId + 1 + 1 }) ∧
      t.idempotencyKey = a.idempotencyKey ∧
      e.action = AuditAction.tokenCreated ∧
      t.grossAmount = a.grossAmount ∧
      t.commissionAmount = a.commissionAmount ∧
      t.netAmount = a.netAmount := by
  simp only [createToken, hfresh]
  exact ⟨_, _, rfl, rfl, rfl, rfl, rfl, rfl⟩

/-- Claim C3: two create_token calls with the same idempotency key (the
other arguments equal or not) return the same token id, add no second
token row, and leave exactly one TOKEN_CREATED audit entry; the second
call does not change the store at all. -/
theorem claim_c3_idempotent_create (secret : String) (db : DB) (a b : CreateArgs)
    (now now2 : Nat)
    (hfresh : findTokenByKey db a.idempotencyKey = none)
    (hkey : b.idempotencyKey = a.idempotencyKey) :
    (createToken secret (createToken secret db a now).2 b now2).1.id =
      (createToken secret db a now).1.id ∧
    (createToken secret (createToken secret db a now).2 b now2).2 =
      (createToken secret db a now).2 ∧
    (createToken secret db a now).2.tokens.length = db.tokens.length + 1 ∧
    countAction (createToken secret db a now).2.audits AuditAction.tokenCreated =
      countAction db.audits AuditAction.tokenCreated + 1 := by
  obtain ⟨t, e, heq, htkey, heact, -, -, -⟩ :=
    createToken_fresh_shape secret db a now hfresh
  have hfresh2 : db.tokens.find? (fun u => u.idempotencyKey == a.idempotencyKey) = none :=
    hfresh
  have hfind2 : findTokenByKey (createToken secret db a now).2 b.idempotencyKey = some t := by
    rw [heq]
    show (db.tokens ++ [t]).find? (fun u => u.idempotencyKey == b.idempotencyKey) = some t
    simp only [hkey]
    rw [List.find?_append, hfresh2]
    rw [List.find?_cons_of_pos _ (by simp [htkey])]
    rfl
  have hfirst_id : (createToken secret db a now).1 = t := by rw [heq]
  have hexist : ∀ db1 : DB, findTokenByKey db1 b.idempotencyKey = some t →
      createToken secret db1 b now2 = (t, db1) := by
    intro db1 h
    simp only [createToken, h]
  have hsecond : createToken secret (createToken secret db a now).2 b now2 =
      (t, (createToken secret db a now).2) :=
    hexist ((createToken secret db a now).2) hfind2
  refine ⟨by rw [hsecond, hfirst_id], by rw [hsecond], ?_, ?_⟩
  · rw [heq]
    show (db.tokens ++ [t]).length = db.tokens.length + 1
    simp
  · rw [heq]
    show countAction (db.audits ++ [e]) AuditAction.tokenCreated =
      countAction db.audits AuditAction.tokenCreated + 1
    unfold countAction
    rw [List.countP_append]
    simp [heact]

/-- Witness for C3: creating with key abc twice (the second call with a
different gross amount) in a concrete store returns id 0 both times, adds
one row and one TOKEN_CREATED entry. -/
theorem claim_c3_idempotent_create_witness :
    (createToken secretW (createToken secretW DB.empty argsW 100).2
        { argsW with grossAmount := 5 } 101).1.id =
      (createToken secretW DB.empty argsW 100).1.id ∧
    (createToken secretW (createToken secretW DB.empty argsW 100).2
        { argsW with grossAmount := 5 } 101).2 =
      (createToken secretW DB.empty argsW 100).2 ∧
    (createToken secretW DB.empty argsW 100).2.tokens.length =
      DB.empty.tokens.length + 1 ∧
    countAction (createToken secretW DB.empty argsW 100).2.audits
        AuditAction.tokenCreated =
      countAction DB.empty.audits AuditAction.tokenCreated + 1 :=
  claim_c3_idempotent_create secretW DB.empty argsW { argsW with grossAmount := 5 }
    100 101 (by decide) (by decide)

/-! ### C6: hash-chain verification -/

/-- The running hash after walking a list of entries: the last entry's
hash, or the starting hash for an empty list. -/
def runHash (prev : AHash) : List AuditLogEntry → AHash
  | [] => prev
  | e :: rest => runHash e.entryHash rest

theorem verifyChainFrom_cons_of (prev : AHash) (x : AuditLogEntry)
    (l : List AuditLogEntry) (h1 : x.previousHash = prev)
    (h2 : x.entryHash = computeEntryHash x) :
    verifyChainFrom prev (x :: l) = verifyChainFrom x.entryHash l := by
  simp only [verifyChainFrom]
  rw [if_neg (by simp [h1]), if_neg (by simp [h2])]

theorem verifyChainFrom_cons_inv (prev : AHash) (x : AuditLogEntry)
    (l : List AuditLogEntry) (h : verifyChainFrom prev (x :: l) = (true, none)) :
    x.previousHash = prev ∧ x.entryHash = computeEntryHash x ∧
    verifyChainFrom x.entryHash l = (true, none) := by
  by_cases h1 : x.previousHash = prev
  · by_cases h2 : x.entryHash = computeEntryHash x
    · refine ⟨h1, h2, ?_⟩
      simp only [verifyChainFrom] at h
      rw [if_neg (by simp [h1]), if_neg (by simp [h2])] at h
      exact h
    · exfalso
      simp only [verifyChainFrom] at h
      rw [if_neg (by simp [h1]), if_pos h2] at h
      simp at h
  · exfalso
    simp only [verifyChainFrom] at h
    rw [if_pos h1] at h
    simp at h

theorem verifyChainFrom_append (l1 l2 : List AuditLogEntry) : ∀ prev : AHash,
    verifyChainFrom prev l1 = (true, none) →
    verifyChainFrom prev (l1 ++ l2) = verifyChainFrom (runHash prev l1) l2 := by
  induction l1 with
  | nil => intro prev _; rfl
  | cons x xs ih =>
    intro prev h
    obtain ⟨h1, h2, h3⟩ := verifyChainFrom_cons_inv prev x xs h
    rw [List.cons_append, verifyChainFrom_cons_of prev x (xs ++ l2) h1 h2]
    exact ih x.entryHash h3

theorem runHash_eq_lastHash (l : List AuditLogEntry) : ∀ prev : AHash,
    runHash prev l = (match l.getLast? with
      | some e => e.entryHash
      | none => prev) := by
  induction l with
  | nil => intro prev; rfl
  | cons x xs ih =>
    intro prev
    cases xs with
    | nil => rfl
    | cons y t =>
      show runHash x.entryHash (y :: t) = _
      rw [ih x.entryHash, List.getLast?_cons_cons]
      cases h : (y :: t).getLast? with
      | none => exact absurd h (by simp)
      | some z => rfl

/-- Appending through the ledger's own append operation preserves chain
validity. -/
theorem chain_append_valid (db : DB) (x : AuditInput)
    (h : verifyChainIntegrity db = (true, none)) :
    verifyChainIntegrity (appendAudit db x).2 = (true, none) := by
  show verifyChainFrom AHash.genesis (appendAudit db x).2.audits = (true, none)
  rw [appendAudit_audits]
  rw [verifyChainFrom_append db.audits [(appendAudit db x).1] AHash.genesis h]
  have hrun : runHash AHash.genesis db.audits = lastHash db.audits := by
    rw [runHash_eq_lastHash db.audits AHash.genesis]
    unfold lastHash
    rfl
  rw [hrun]
  rw [verifyChainFrom_cons_of (lastHash db.audits) ((appendAudit db x).1) [] rfl rfl]
  rfl

/-- Replacing one entry of a valid chain by an entry that breaks either
chain check — its previous_hash no longer matches the original link, or
its stored entry_hash no longer recomputes — is caught exactly at that
entry. -/
theorem chain_break (l1 : List AuditLogEntry) : ∀ (prev : AHash)
    (e : AuditLogEntry) (l2 : List AuditLogEntry) (e' : AuditLogEntry),
    verifyChainFrom prev (l1 ++ e :: l2) = (true, none) →
    (e'.previousHash ≠ e.previousHash ∨ e'.entryHash ≠ computeEntryHash e') →
    verifyChainFrom prev (l1 ++ e' :: l2) = (false, some e') := by
  induction l1 with
  | nil =>
    intro prev e l2 e' h hbad
    obtain ⟨h1, h2, _⟩ := verifyChainFrom_cons_inv prev e l2 h
    show verifyChainFrom prev (e' :: l2) = (false, some e')
    simp only [verifyChainFrom]
    by_cases hp : e'.previousHash = prev
    · rw [if_neg (by simp [hp])]
      have he : e'.entryHash ≠ computeEntryHash e' := by
        rcases hbad with hb | hb
        · exact absurd (hp.trans h1.symm) hb
        · exact hb
      rw [if_pos he]
    · rw [if_pos hp]
  | cons x xs ih =>
    intro prev e l2 e' h hbad
    rw [List.cons_append] at h ⊢
    obtain ⟨h1, h2, h3⟩ := verifyChainFrom_cons_inv prev x (xs ++ e :: l2) h
    rw [verifyChainFrom_cons_of prev x (xs ++ e' :: l2) h1 h2]
    exact ih x.entryHash e l2 e' h3 hbad

/-- In a valid chain, every entry's stored hash recomputes. -/
theorem chain_valid_at (l1 : List AuditLogEntry) : ∀ (prev : AHash)
    (e : AuditLogEntry) (l2 : List AuditLogEntry),
    verifyChainFrom prev (l1 ++ e :: l2) = (true, none) →
    e.entryHash = computeEntryHash e := by
  induction l1 with
  | nil =>
    intro prev e l2 h
    exact (verifyChainFrom_cons_inv prev e l2 h).2.1
  | cons x xs ih =>
    intro prev e l2 h
    rw [List.cons_append] at h
    obtain ⟨-, -, h3⟩ := verifyChainFrom_cons_inv prev x (xs ++ e :: l2) h
    exact ih x.entryHash e l2 h3

/-- Claim C6 (amended): a ledger written by the append operation verifies
as valid, and flipping one field of entry k is reported as invalid with
broken entry k in each of these cases: a field feeding compute_hash
flipped with the stored hashes kept (id, action, actor_type, actor_id,
request_summary, the amounts, result); the stored previous_hash flipped;
the stored entry_hash flipped (entry content kept).  Fields outside the
hash preimage (target_id, details, error_message) are not covered: see
the counterexample. -/
theorem claim_c6_chain_verification (db : DB) (x : AuditInput)
    (l1 l2 : List AuditLogEntry) (e e' : AuditLogEntry) :
    (verifyChainIntegrity db = (true, none) →
      verifyChainIntegrity (appendAudit db x).2 = (true, none)) ∧
    (db.audits = l1 ++ e :: l2 →
      verifyChainIntegrity db = (true, none) →
      e'.previousHash = e.previousHash →
      e'.entryHash = e.entryHash →
      computeEntryHash e' ≠ computeEntryHash e →
      verifyChainIntegrity { db with audits := l1 ++ e' :: l2 } = (false, some e')) ∧
    (db.audits = l1 ++ e :: l2 →
      verifyChainIntegrity db = (true, none) →
      e'.previousHash ≠ e.previousHash →
      verifyChainIntegrity { db with audits := l1 ++ e' :: l2 } = (false, some e')) ∧
    (db.audits = l1 ++ e :: l2 →
      verifyChainIntegrity db = (true, none) →
      e'.previousHash = e.previousHash →
      e'.entryHash ≠ e.entryHash →
      computeEntryHash e' = computeEntryHash e →
      verifyChainIntegrity { db with audits := l1 ++ e' :: l2 } = (false, some e')) := by
  refine ⟨chain_append_valid db x, ?_, ?_, ?_⟩
  · intro hsplit hvalid hp he hc
    show verifyChainFrom AHash.genesis (l1 ++ e' :: l2) = (false, some e')
    have hv : verifyChainFrom AHash.genesis (l1 ++ e :: l2) = (true, none) := by
      rw [← hsplit]
      exact hvalid
    have hee := chain_valid_at l1 AHash.genesis e l2 hv
    apply chain_break l1 AHash.genesis e l2 e' hv
    right
    rw [he, hee]
    exact Ne.symm hc
  · intro hsplit hvalid hp
    show verifyChainFrom AHash.genesis (l1 ++ e' :: l2) = (false, some e')
    have hv : verifyChainFrom AHash.genesis (l1 ++ e :: l2) = (true, none) := by
      rw [← hsplit]
      exact hvalid
    exact chain_break l1 AHash.genesis e l2 e' hv (Or.inl hp)
  · intro hsplit hvalid hp he hc
    show verifyChainFrom AHash.genesis (l1 ++ e' :: l2) = (false, some e')
    have hv : verifyChainFrom AHash.genesis (l1 ++ e :: l2) = (true, none) := by
      rw [← hsplit]
      exact hvalid
    have hee := chain_valid_at l1 AHash.genesis e l2 hv
    apply chain_break l1 AHash.genesis e l2 e' hv
    right
    rw [hc, ← hee]
    exact he

/-- A concrete audit input used to build small ledgers. -/
def auditInW : AuditInput :=
  { action := AuditAction.payoutInitiated
    actorType := "coach"
    actorId := some "7"
    result := "failure"
    errorMessage := some "Coach mismatch" }

/-- A second concrete audit input. -/
def auditInW2 : AuditInput :=
  { action := AuditAction.tokenUsed
    actorType := "coach"
    actorId := some "7"
    result := "success" }

/-- One-entry ledger built by append from the empty store. -/
def dbA : DB := (appendAudit DB.empty auditInW).2

/-- Its entry. -/
def eA : AuditLogEntry := (appendAudit DB.empty auditInW).1

/-- Two-entry ledger built by append. -/
def dbB : DB := (appendAudit dbA auditInW2).2

/-- The second entry. -/
def eB : AuditLogEntry := (appendAudit dbA auditInW2).1

/-- The first entry with one hashed field (result) flipped, stored hashes
kept. -/
def eAflipResult : AuditLogEntry := { eA with result := "success" }

/-- The first entry with one unhashed field (error_message) flipped. -/
def eAflipError : AuditLogEntry := { eA with errorMessage := some "tampered" }

/-- The first entry with its stored previous_hash flipped. -/
def eAflipPrev : AuditLogEntry := { eA with previousHash := eA.entryHash }

/-- The first entry with its stored entry_hash flipped (content kept). -/
def eAflipHash : AuditLogEntry := { eA with entryHash := AHash.genesis }

/-- Witness for C6: the concrete two-entry append-built ledger verifies,
and flipping the result field, the previous_hash, or the stored
entry_hash of entry 0 is in each case reported as broken entry 0. -/
theorem claim_c6_chain_verification_witness :
    verifyChainIntegrity (appendAudit dbA auditInW2).2 = (true, none) ∧
    verifyChainIntegrity { dbB with audits := [] ++ eAflipResult :: [eB] } =
      (false, some eAflipResult) ∧
    verifyChainIntegrity { dbB with audits := [] ++ eAflipPrev :: [eB] } =
      (false, some eAflipPrev) ∧
    verifyChainIntegrity { dbB with audits := [] ++ eAflipHash :: [eB] } =
      (false, some eAflipHash) :=
  ⟨(claim_c6_chain_verification dbA auditInW2 [] [] eA eA).1 (by decide),
   (claim_c6_chain_verification dbB auditInW [] [eB] eA eAflipResult).2.1
     (by decide) (by decide) (by decide) (by decide) (by decide),
   (claim_c6_chain_verification dbB auditInW [] [eB] eA eAflipPrev).2.2.1
     (by decide) (by decide) (by decide),
   (claim_c6_chain_verification dbB auditInW [] [eB] eA eAflipHash).2.2.2
     (by decide) (by decide) (by decide) (by decide) (by decide)⟩

/-- Counterexample for C6 as stated: flipping the error_message field of
entry 0 of the two-entry ledger changes the entry but verification still
reports the chain valid, because error_message does not feed
compute_hash. -/
theorem claim_c6_counterexample :
    eAflipError ≠ eA ∧
    verifyChainIntegrity { dbB with audits := eAflipError :: [eB] } = (true, none) := by
  decide

/-! ### C7: token tamper detection -/

/-- validate_token on an ACTIVE, unexpired token whose stored hash does
not recompute: INTEGRITY_CHECK_FAILED, and a TOKEN_TAMPERED audit entry
is appended. -/
theorem validateToken_tampered (secret : String) (db : DB) (t : TrustToken)
    (coach : Option Nat) (now : Nat)
    (hstat : t.status = TokenStatus.active) (hexp : now < t.expiresAt)
    (hbad : ¬ (t.integrityHash = some (computeIntegrityHash secret t))) :
    (validateToken secret db t coach now).1 =
      { valid := false, reason := VReason.integrityFailed, token := none } ∧
    ∃ e, (validateToken secret db t coach now).2.audits = db.audits ++ [e] ∧
      e.action = AuditAction.tokenTampered ∧ e.result = "failure" := by
  unfold validateToken
  rw [if_neg (by simp [hstat]), if_neg (by omega), if_pos hbad]
  exact ⟨rfl, _, rfl, rfl, rfl⟩

/-- Claim C7 (amended): an out-of-band mutation that changes the
fingerprint of an ACTIVE, unexpired token is caught by validate as
INTEGRITY_CHECK_FAILED with a TOKEN_TAMPERED audit entry; in particular
resetting status from USED back to ACTIVE (hash left as stored) changes
the fingerprint and is caught.  Mutations to fields outside the
fingerprint (ips, timestamps, expires_at) are not caught: see the
counterexample. -/
theorem claim_c7_tamper_detection (secret : String) (db : DB) (t u : TrustToken)
    (coach : Option Nat) (now : Nat) :
    (t.status = TokenStatus.active → now < t.expiresAt →
      ¬ (t.integrityHash = some (computeIntegrityHash secret t)) →
      (validateToken secret db t coach now).1 =
        { valid := false, reason := VReason.integrityFailed, token := none } ∧
      ∃ e, (validateToken secret db t coach now).2.audits = db.audits ++ [e] ∧
        e.action = AuditAction.tokenTampered ∧ e.result = "failure") ∧
    (u.status = TokenStatus.used →
      u.integrityHash = some (computeIntegrityHash secret u) →
      now < u.expiresAt →
      (validateToken secret db { u with status := TokenStatus.active } coach now).1 =
        { valid := false, reason := VReason.integrityFailed, token := none }) := by
  constructor
  · intro h1 h2 h3
    exact validateToken_tampered secret db t coach now h1 h2 h3
  · intro hu hint hexp
    have hbad : ¬ (({ u with status := TokenStatus.active } : TrustToken).integrityHash =
        some (computeIntegrityHash secret { u with status := TokenStatus.active })) := by
      show ¬ (u.integrityHash = _)
      rw [hint]
      intro hcontra
      have heq := Option.some.inj hcontra
      have hstatus : u.status = TokenStatus.active :=
        congrArg TokenFingerprint.status heq
      rw [hu] at hstatus
      exact TokenStatus.noConfusion hstatus
    exact (validateToken_tampered secret db { u with status := TokenStatus.active }
      coach now rfl hexp hbad).1

/-- The concrete token with its gross amount mutated out of band. -/
def tampW : TrustToken := { tokW with grossAmount := 999999 }

/-- The concrete token after a legitimate use. -/
def usedW : TrustToken := markUsed secretW 105 (some "3.3.3.3") tokW

/-- Witness for C7: the amount-tampered token is caught with a
TOKEN_TAMPERED entry, and the used token with status reset to ACTIVE is
caught as well. -/
theorem claim_c7_tamper_detection_witness :
    ((validateToken secretW dbW tampW (some 7) 105).1 =
      { valid := false, reason := VReason.integrityFailed, token := none } ∧
     ∃ e, (validateToken secretW dbW tampW (some 7) 105).2.audits = dbW.audits ++ [e] ∧
       e.action = AuditAction.tokenTampered ∧ e.result = "failure") ∧
    (validateToken secretW dbW { usedW with status := TokenStatus.active } (some 7) 106).1 =
      { valid := false, reason := VReason.integrityFailed, token := none } :=
  ⟨(claim_c7_tamper_detection secretW dbW tampW usedW (some 7) 105).1
      (by decide) (by decide) (by decide),
   (claim_c7_tamper_detection secretW dbW tampW usedW (some 7) 106).2
      (by decide) (by decide) (by decide)⟩

/-- The concrete token with its expiry extended out of band. -/
def expW : TrustToken := { tokW with expiresAt := 999999 }

/-- Counterexample for C7 as stated: mutating the stored expires_at field
out of band (hash untouched) is not detected at all; validate reports the
token valid and appends nothing, because expires_at does not feed the
fingerprint. -/
theorem claim_c7_counterexample :
    expW ≠ tokW ∧
    (validateToken secretW dbW expW (some 7) 105).1 =
      { valid := true, reason := VReason.okReason, token := some expW } ∧
    (validateToken secretW dbW expW (some 7) 105).2 = dbW := by
  decide

/-! ### Payout-path helpers -/

instance {ε α : Type} [DecidableEq ε] [DecidableEq α] : DecidableEq (Except ε α)
  | Except.error e1, Except.error e2 =>
    decidable_of_iff (e1 = e2) ⟨fun h => by rw [h], fun h => by injection h⟩
  | Except.error _, Except.ok _ => isFalse (fun h => by injection h)
  | Except.ok _, Except.error _ => isFalse (fun h => by injection h)
  | Except.ok a1, Except.ok a2 =>
    decidable_of_iff (a1 = a2) ⟨fun h => by rw [h], fun h => by injection h⟩

/-- validate_token with a supplied coach id that differs from the token's
coach: COACH_MISMATCH, store untouched. -/
theorem validateToken_coachMismatch (secret : String) (db : DB) (t : TrustToken)
    (c : Nat) (now : Nat)
    (hstat : t.status = TokenStatus.active) (hexp : now < t.expiresAt)
    (hint : t.integrityHash = some (computeIntegrityHash secret t))
    (hne : t.coachId ≠ c) :
    validateToken secret db t (some c) now =
      ({ valid := false, reason := VReason.coachMismatch, token := none }, db) := by
  unfold validateToken
  rw [if_neg (by simp [hstat]), if_neg (by omega), if_neg (by simp [hint])]
  simp only []
  rw [if_pos hne]

/-- create_payout body when validation under the lock fails: it appends a
PAYOUT_INITIATED failure entry carrying the reason and raises the reason
as the error. -/
theorem createPayoutInner_invalid (secret : String) (db dbv : DB) (tid : Nat)
    (t : TrustToken) (c : Nat) (now : Nat) (r : VReason)
    (hfind : findToken db tid = some t)
    (hval : validateToken secret db t (some c) now =
      ({ valid := false, reason := r, token := none }, dbv)) :
    createPayoutInner secret db (some tid) c now =
      (Except.error (vreasonMsg r),
       (appendAudit dbv
         { action := AuditAction.payoutInitiated
           actorType := "coach"
           actorId := some (toString c)
           result := "failure"
           errorMessage := some (vreasonMsg r)
           requestSummary := "token_id=" ++ toString tid }).2) := by
  simp only [createPayoutInner, hfind, hval]
  rw [if_pos trivial]

/-- The transaction boundary of create_payout: a raising body rolls the
store back to the state at entry. -/
theorem createPayout_of_inner_error (secret : String) (db db' : DB)
    (tokenId : Option Nat) (c : Nat) (now : Nat) (msg : String)
    (h : createPayoutInner secret db tokenId c now = (Except.error msg, db')) :
    createPayout secret db tokenId c now = (Except.error msg, db) := by
  unfold createPayout
  rw [h]

/-! ### C9: failed payout leaves no persisted state -/

/-- Claim C9 (amended): when create_payout validation fails, the body
appends a PAYOUT_INITIATED failure entry with the reason and re-raises,
but the atomic transaction then rolls everything back: the operation
returns the reason as its error with the store exactly as it was, so
neither a Payout row, nor a token mutation, nor even that audit entry
survives the failed call. -/
theorem claim_c9_payout_failure_rollback (secret : String) (db dbv : DB)
    (tid : Nat) (t : TrustToken) (c : Nat) (now : Nat) (r : VReason)
    (hfind : findToken db tid = some t)
    (hval : validateToken secret db t (some c) now =
      ({ valid := false, reason := r, token := none }, dbv)) :
    createPayout secret db (some tid) c now = (Except.error (vreasonMsg r), db) ∧
    ∃ e, (createPayoutInner secret db (some tid) c now).2.audits = dbv.audits ++ [e] ∧
      e.action = AuditAction.payoutInitiated ∧ e.result = "failure" ∧
      e.errorMessage = some (vreasonMsg r) := by
  have hi := createPayoutInner_invalid secret db dbv tid t c now r hfind hval
  constructor
  · exact createPayout_of_inner_error secret db _ (some tid) c now _ hi
  · rw [hi]
    exact ⟨_, appendAudit_audits _ _, rfl, rfl, rfl⟩

/-- The store after the concrete token has been used. -/
def usedDbW : DB := (useToken secretW dbW 0 (some 7) (some "3.3.3.3") 105).2

/-- Witness for C9: create_payout on the concrete already-used token
fails with the used-status reason, returns the store unchanged, and the
transient transaction state held the PAYOUT_INITIATED failure entry. -/
theorem claim_c9_payout_failure_rollback_witness :
    createPayout secretW usedDbW (some 0) 7 106 =
      (Except.error (vreasonMsg (VReason.notActive TokenStatus.used)), usedDbW) ∧
    ∃ e, (createPayoutInner secretW usedDbW (some 0) 7 106).2.audits =
        usedDbW.audits ++ [e] ∧
      e.action = AuditAction.payoutInitiated ∧ e.result = "failure" ∧
      e.errorMessage = some (vreasonMsg (VReason.notActive TokenStatus.used)) :=
  claim_c9_payout_failure_rollback secretW usedDbW usedDbW 0 usedW 7 106
    (VReason.notActive TokenStatus.used) (by decide) (by decide)

/-- Counterexample for C9 as stated: after the failed call on the
concrete used token, the store equals the pre-call store and holds no
PAYOUT_INITIATED entry at all — the failure audit entry does not persist,
because the atomic transaction rolls it back with everything else. -/
theorem claim_c9_counterexample :
    (createPayout secretW usedDbW (some 0) 7 106).1 =
      Except.error "Token status is used" ∧
    (createPayout secretW usedDbW (some 0) 7 106).2 = usedDbW ∧
    countAction (createPayout secretW usedDbW (some 0) 7 106).2.audits
      AuditAction.payoutInitiated = 0 := by
  decide

/-! ### C5: coach mismatch on payout -/

/-- Claim C5 (amended): create_payout with a coach other than the token's
coach (token otherwise valid) fails with the COACH_MISMATCH reason and
leaves the store unchanged; the audit entry appended inside the
transaction is a PAYOUT_INITIATED failure entry — the dedicated
BYPASS_ATTEMPT branch is unreachable here because validate_token already
performs the coach check — and the rollback discards even that entry. -/
theorem claim_c5_coach_mismatch (secret : String) (db : DB) (tid : Nat)
    (t : TrustToken) (c : Nat) (now : Nat)
    (hfind : findToken db tid = some t)
    (hstat : t.status = TokenStatus.active) (hexp : now < t.expiresAt)
    (hint : t.integrityHash = some (computeIntegrityHash secret t))
    (hne : t.coachId ≠ c) :
    createPayout secret db (some tid) c now = (Except.error "Coach mismatch", db) ∧
    (∃ e, (createPayoutInner secret db (some tid) c now).2.audits = db.audits ++ [e] ∧
      e.action = AuditAction.payoutInitiated ∧ e.result = "failure" ∧
      e.errorMessage = some "Coach mismatch") ∧
    countAction (createPayoutInner secret db (some tid) c now).2.audits
        AuditAction.bypassAttempt =
      countAction db.audits AuditAction.bypassAttempt := by
  have hval := validateToken_coachMismatch secret db t c now hstat hexp hint hne
  have hi := createPayoutInner_invalid secret db db tid t c now
    VReason.coachMismatch hfind hval
  refine ⟨createPayout_of_inner_error secret db _ (some tid) c now _ hi, ?_, ?_⟩
  · rw [hi]
    exact ⟨_, appendAudit_audits _ _, rfl, rfl, rfl⟩
  · rw [hi]
    show countAction (db.audits ++ [_]) AuditAction.bypassAttempt = _
    unfold countAction
    rw [List.countP_append]
    simp

/-- Witness for C5: coach 99 tries to claim the concrete token of coach
7. -/
theorem claim_c5_coach_mismatch_witness :
    createPayout secretW dbW (some 0) 99 105 = (Except.error "Coach mismatch", dbW) ∧
    (∃ e, (createPayoutInner secretW dbW (some 0) 99 105).2.audits = dbW.audits ++ [e] ∧
      e.action = AuditAction.payoutInitiated ∧ e.result = "failure" ∧
      e.errorMessage = some "Coach mismatch") ∧
    countAction (createPayoutInner secretW dbW (some 0) 99 105).2.audits
        AuditAction.bypassAttempt =
      countAction dbW.audits AuditAction.bypassAttempt :=
  claim_c5_coach_mismatch secretW dbW 0 tokW 99 105
    (by decide) (by decide) (by decide) (by decide) (by decide)

/-- Counterexample for C5 as stated: after the failed mismatch call no
BYPASS_ATTEMPT entry exists anywhere — the store is exactly the pre-call
store — so the claimed BYPASS_ATTEMPT audit entry is never appended. -/
theorem claim_c5_counterexample :
    (createPayout secretW dbW (some 0) 99 105).1 = Except.error "Coach mismatch" ∧
    (createPayout secretW dbW (some 0) 99 105).2 = dbW ∧
    countAction (createPayout secretW dbW (some 0) 99 105).2.audits
      AuditAction.bypassAttempt = 0 := by
  decide

/-! ### C4: payout exclusivity -/

/-- The used version of a token as written by create_payout: status USED,
used_at set, hash recomputed (no used_by_ip on this path). -/
def payoutUsedToken (secret : String) (now : Nat) (t : TrustToken) : TrustToken :=
  let t1 := { t with status := TokenStatus.used, usedAt := some now }
  { t1 with integrityHash := some (computeIntegrityHash secret t1) }

/-- create_payout success path: all checks pass, the token row becomes the
used version, and exactly one payout row for the token is appended. -/
theorem createPayoutInner_success (secret : String) (db : DB) (tid : Nat)
    (t : TrustToken) (c : Nat) (now : Nat)
    (hfind : findToken db tid = some t)
    (hstat : t.status = TokenStatus.active) (hexp : now < t.expiresAt)
    (hint : t.integrityHash = some (computeIntegrityHash secret t))
    (hc : t.coachId = c)
    (hnopay : db.payouts.any (fun p => p.trustTokenId == tid) = false)
    (hbyp : ¬ (t.commissionRate > 0 ∧ t.commissionAmount = 0)) :
    ∃ p db4, createPayoutInner secret db (some tid) c now = (Except.ok p, db4) ∧
      findToken db4 tid = some (payoutUsedToken secret now t) ∧
      db4.payouts = db.payouts ++ [p] ∧
      p.trustTokenId = tid := by
  have hval := validateToken_ok secret db t (some c) now hstat hexp hint
    (Or.inr (by rw [hc]))
  have hid : (payoutUsedToken secret now t).id = tid := by
    show t.id = tid
    have := List.find?_some hfind
    simpa using this
  have hsome : (db.tokens.find? (fun u => u.id == tid)).isSome := by
    rw [show db.tokens.find? (fun u => u.id == tid) = findToken db tid from rfl, hfind]
    rfl
  simp only [createPayoutInner, hfind, hval]
  rw [if_neg (by simp)]
  rw [if_neg (by simp [hc])]
  rw [if_neg (by simp [hnopay])]
  rw [if_neg hbyp]
  refine ⟨_, _, rfl, ?_, rfl, rfl⟩
  show (db.tokens.map (fun u => if u.id == (payoutUsedToken secret now t).id
      then payoutUsedToken secret now t else u)).find? (fun u => u.id == tid) =
    some (payoutUsedToken secret now t)
  exact find?_update db.tokens (payoutUsedToken secret now t) tid hid hsome

/-- Claim C4 (amended): a first create_payout on a valid token succeeds
and leaves exactly one Payout row for the token; a second create_payout
on the same token fails — but with the TOKEN_NOT_ACTIVE reason (the first
call marked the token USED, so validation fails before the payout-exists
check is reached), not PAYOUT_ALREADY_EXISTS — and changes nothing. -/
theorem claim_c4_payout_exclusivity (secret : String) (db : DB) (tid : Nat)
    (t : TrustToken) (c c2 : Nat) (now now2 : Nat)
    (hfind : findToken db tid = some t)
    (hstat : t.status = TokenStatus.active) (hexp : now < t.expiresAt)
    (hint : t.integrityHash = some (computeIntegrityHash secret t))
    (hc : t.coachId = c)
    (hnopay : db.payouts.any (fun p => p.trustTokenId == tid) = false)
    (hbyp : ¬ (t.commissionRate > 0 ∧ t.commissionAmount = 0)) :
    (∃ p, (createPayout secret db (some tid) c now).1 = Except.ok p) ∧
    countPayoutsFor (createPayout secret db (some tid) c now).2 tid = 1 ∧
    (createPayout secret (createPayout secret db (some tid) c now).2
        (some tid) c2 now2).1 = Except.error "Token status is used" ∧
    (createPayout secret (createPayout secret db (some tid) c now).2
        (some tid) c2 now2).2 = (createPayout secret db (some tid) c now).2 := by
  obtain ⟨p, db4, hinner, hfindUsed, hpay, hptid⟩ :=
    createPayoutInner_success secret db tid t c now hfind hstat hexp hint hc hnopay hbyp
  have hfirst : createPayout secret db (some tid) c now = (Except.ok p, db4) := by
    unfold createPayout
    rw [hinner]
  have hcount0 : db.payouts.countP (fun q => q.trustTokenId == tid) = 0 := by
    rw [List.countP_eq_zero]
    exact List.any_eq_false.mp hnopay
  have hcount1 : countPayoutsFor db4 tid = 1 := by
    unfold countPayoutsFor
    rw [hpay, List.countP_append, hcount0]
    simp [hptid]
  have hstat2 : (payoutUsedToken secret now t).status ≠ TokenStatus.active := by
    show TokenStatus.used ≠ TokenStatus.active
    simp
  have hval2 := validateToken_notActive secret db4 (payoutUsedToken secret now t)
    (some c2) now2 hstat2
  have hinner2 := createPayoutInner_invalid secret db4 db4 tid
    (payoutUsedToken secret now t) c2 now2
    (VReason.notActive (payoutUsedToken secret now t).status) hfindUsed hval2
  have hmsg : vreasonMsg (VReason.notActive (payoutUsedToken secret now t).status) =
      "Token status is used" := rfl
  have hsecond : createPayout secret db4 (some tid) c2 now2 =
      (Except.error "Token status is used", db4) := by
    have hh := createPayout_of_inner_error secret db4 _ (some tid) c2 now2 _ hinner2
    rw [hmsg] at hh
    exact hh
  refine ⟨⟨p, by rw [hfirst]⟩, by rw [hfirst]; exact hcount1, ?_, ?_⟩
  · simp only [hfirst]
    rw [hsecond]
  · simp only [hfirst]
    rw [hsecond]

/-- Witness for C4: coach 7 claims the concrete token successfully; the
repeat claim fails on the used status with exactly one payout row. -/
theorem claim_c4_payout_exclusivity_witness :
    (∃ p, (createPayout secretW dbW (some 0) 7 105).1 = Except.ok p) ∧
    countPayoutsFor (createPayout secretW dbW (some 0) 7 105).2 0 = 1 ∧
    (createPayout secretW (createPayout secretW dbW (some 0) 7 105).2
        (some 0) 7 106).1 = Except.error "Token status is used" ∧
    (createPayout secretW (createPayout secretW dbW (some 0) 7 105).2
        (some 0) 7 106).2 = (createPayout secretW dbW (some 0) 7 105).2 :=
  claim_c4_payout_exclusivity secretW dbW 0 tokW 7 7 105 106
    (by decide) (by decide) (by decide) (by decide) (by decide) (by decide) (by decide)

/-- Counterexample for C4 as stated: the second call on the concrete
token does fail and exactly one Payout row exists, but its reason is the
used status, not PAYOUT_ALREADY_EXISTS. -/
theorem claim_c4_counterexample :
    (createPayout secretW (createPayout secretW dbW (some 0) 7 105).2
        (some 0) 7 106).1 = Except.error "Token status is used" ∧
    (createPayout secretW (createPayout secretW dbW (some 0) 7 105).2
        (some 0) 7 106).1 ≠ Except.error "Payout already exists for this token" ∧
    countPayoutsFor (createPayout secretW (createPayout secretW dbW (some 0) 7 105).2
        (some 0) 7 106).2 0 = 1 := by
  decide

/-! ### C8: the gross = commission + net invariant -/

/-- The store-wide amount invariant of the spec. -/
def AmountInvariant (db : DB) : Prop :=
  ∀ t ∈ db.tokens, t.grossAmount = t.commissionAmount + t.netAmount

/-- Any breakdown the commission calculator returns sums exactly. -/
theorem calculate_ok_sum (g : Int) (r : Option Int) (b : CommissionBreakdown)
    (h : calculate g r = Except.ok b) :
    b.gross = b.commissionAmount + b.netAmount := by
  unfold calculate at h
  split at h
  · exact absurd h (by simp)
  · split at h
    · exact absurd h (by simp)
    · split at h
      · exact absurd h (by simp)
      · split at h
        · exact absurd h (by simp)
        · have hb := Except.ok.inj h
          rw [← hb]
          simp

/-- validate_token never touches the token and payout tables. -/
theorem validateToken_tokens (secret : String) (db : DB) (t : TrustToken)
    (coach : Option Nat) (now : Nat) :
    (validateToken secret db t coach now).2.tokens = db.tokens ∧
    (validateToken secret db t coach now).2.payouts = db.payouts := by
  unfold validateToken
  by_cases h1 : t.status ≠ TokenStatus.active
  · rw [if_pos h1]
    exact ⟨rfl, rfl⟩
  · rw [if_neg h1]
    by_cases h2 : t.expiresAt ≤ now
    · rw [if_pos h2]
      exact ⟨rfl, rfl⟩
    · rw [if_neg h2]
      by_cases h3 : ¬ (t.integrityHash = some (computeIntegrityHash secret t))
      · rw [if_pos h3]
        exact ⟨rfl, rfl⟩
      · rw [if_neg h3]
        cases coach with
        | none => exact ⟨rfl, rfl⟩
        | some c =>
          dsimp only
          by_cases h4 : t.coachId ≠ c
          · rw [if_pos h4]
            exact ⟨rfl, rfl⟩
          · rw [if_neg h4]
            exact ⟨rfl, rfl⟩

/-- The token table after use_token: unchanged, or one row replaced by its
marked-used version. -/
theorem useToken_tokens_shape (secret : String) (db : DB) (tid : Nat)
    (coach : Option Nat) (ip : Option String) (now : Nat) :
    (useToken secret db tid coach ip now).2.tokens = db.tokens ∨
    ∃ t, findToken db tid = some t ∧
      (useToken secret db tid coach ip now).2.tokens = db.tokens.map
        (fun u => if u.id == (markUsed secret now ip t).id
          then markUsed secret now ip t else u) := by
  cases hfind : findToken db tid with
  | none =>
    left
    simp only [useToken, hfind]
  | some t =>
    by_cases hval : (validateToken secret db t coach now).1.valid = false
    · left
      simp only [useToken, hfind]
      rw [if_pos hval]
      exact (validateToken_tokens secret db t coach now).1
    · right
      refine ⟨t, rfl, ?_⟩
      simp only [useToken, hfind]
      rw [if_neg hval]
      show (updateToken (validateToken secret db t coach now).2
        (markUsed secret now ip t)).tokens = _
      unfold updateToken
      rw [(validateToken_tokens secret db t coach now).1]

/-- The token table after the create_payout body: unchanged, or one row
replaced by its used version. -/
theorem createPayoutInner_tokens_shape (secret : String) (db : DB)
    (tokenId : Option Nat) (c : Nat) (now : Nat) :
    (createPayoutInner secret db tokenId c now).2.tokens = db.tokens ∨
    ∃ tid t, findToken db tid = some t ∧
      (createPayoutInner secret db tokenId c now).2.tokens = db.tokens.map
        (fun u => if u.id == (payoutUsedToken secret now t).id
          then payoutUsedToken secret now t else u) := by
  cases tokenId with
  | none => exact Or.inl rfl
  | some tid =>
    cases hfind : findToken db tid with
    | none =>
      left
      simp only [createPayoutInner, hfind]
    | some t =>
      by_cases hval : (validateToken secret db t (some c) now).1.valid = false
      · left
        simp only [createPayoutInner, hfind]
        rw [if_pos hval]
        show (appendAudit (validateToken secret db t (some c) now).2 _).2.tokens = db.tokens
        rw [appendAudit_tokens]
        exact (validateToken_tokens secret db t (some c) now).1
      · simp only [createPayoutInner, hfind]
        rw [if_neg hval]
        by_cases h2 : t.coachId ≠ c
        · left
          rw [if_pos h2]
          show (appendAudit (validateToken secret db t (some c) now).2 _).2.tokens = db.tokens
          rw [appendAudit_tokens]
          exact (validateToken_tokens secret db t (some c) now).1
        · rw [if_neg h2]
          by_cases h3 : ((validateToken secret db t (some c) now).2.payouts.any
              fun p => p.trustTokenId == tid) = true
          · left
            rw [if_pos h3]
            exact (validateToken_tokens secret db t (some c) now).1
          · rw [if_neg h3]
            by_cases h4 : t.commissionRate > 0 ∧ t.commissionAmount = 0
            · left
              rw [if_pos h4]
              show (appendAudit (validateToken secret db t (some c) now).2 _).2.tokens = db.tokens
              rw [appendAudit_tokens]
              exact (validateToken_tokens secret db t (some c) now).1
            · right
              refine ⟨tid, t, hfind, ?_⟩
              rw [if_neg h4]
              show (updateToken (validateToken secret db t (some c) now).2
                (payoutUsedToken secret now t)).tokens = _
              unfold updateToken
              rw [(validateToken_tokens secret db t (some c) now).1]

/-- The token table after create_payout with its transaction boundary. -/
theorem createPayout_tokens_shape (secret : String) (db : DB)
    (tokenId : Option Nat) (c : Nat) (now : Nat) :
    (createPayout secret db tokenId c now).2.tokens = db.tokens ∨
    ∃ tid t, findToken db tid = some t ∧
      (createPayout secret db tokenId c now).2.tokens = db.tokens.map
        (fun u => if u.id == (payoutUsedToken secret now t).id
          then payoutUsedToken secret now t else u) := by
  rcases hres : createPayoutInner secret db tokenId c now with ⟨r, db'⟩
  cases r with
  | error e =>
    left
    unfold createPayout
    rw [hres]
  | ok p =>
    rcases createPayoutInner_tokens_shape secret db tokenId c now with h | ⟨tid, t, hfind, h⟩
    · left
      rw [hres] at h
      unfold createPayout
      rw [hres]
      exact h
    · right
      refine ⟨tid, t, hfind, ?_⟩
      rw [hres] at h
      unfold createPayout
      rw [hres]
      exact h

/-- Replacing one row by an amounts-preserving rewrite of a stored row
keeps the store-wide invariant. -/
theorem amountInvariant_map (l : List TrustToken) (t t' : TrustToken)
    (hinv : ∀ u ∈ l, u.grossAmount = u.commissionAmount + u.netAmount)
    (hmem : t ∈ l)
    (hg : t'.grossAmount = t.grossAmount)
    (hcm : t'.commissionAmount = t.commissionAmount)
    (hn : t'.netAmount = t.netAmount) :
    ∀ x ∈ l.map (fun u => if u.id == t'.id then t' else u),
      x.grossAmount = x.commissionAmount + x.netAmount := by
  intro x hx
  obtain ⟨u, hu, hfx⟩ := List.mem_map.mp hx
  by_cases hcond : (u.id == t'.id) = true
  · rw [if_pos hcond] at hfx
    rw [← hfx, hg, hcm, hn]
    exact hinv t hmem
  · rw [if_neg hcond] at hfx
    rw [← hfx]
    exact hinv u hu

/-- Claim C8 (amended): create_token itself checks nothing about the
amounts — it stores whatever the caller passes (see the counterexample) —
but every breakdown from the commission calculator sums exactly, a token
created from summing amounts satisfies gross = commission + net, and
validate, use and create_payout never change any stored token's amounts,
so the invariant, once established at creation, is preserved by every
subsequent core operation. -/
theorem claim_c8_amount_invariant (secret : String) (db : DB) (a : CreateArgs)
    (g r : Int) (b : CommissionBreakdown) (t : TrustToken) (tid : Nat)
    (coach : Option Nat) (ip : Option String) (tokenId : Option Nat)
    (c : Nat) (now : Nat) :
    (calculate g (some r) = Except.ok b → b.gross = b.commissionAmount + b.netAmount) ∧
    (AmountInvariant db → a.grossAmount = a.commissionAmount + a.netAmount →
      AmountInvariant (createToken secret db a now).2 ∧
      (createToken secret db a now).1.grossAmount =
        (createToken secret db a now).1.commissionAmount +
        (createToken secret db a now).1.netAmount) ∧
    (AmountInvariant db → AmountInvariant (validateToken secret db t coach now).2) ∧
    (AmountInvariant db → AmountInvariant (useToken secret db tid coach ip now).2) ∧
    (AmountInvariant db → AmountInvariant (createPayout secret db tokenId c now).2) := by
  refine ⟨fun h => calculate_ok_sum g (some r) b h, ?_, ?_, ?_, ?_⟩
  · intro hinv ha
    cases hfresh : findTokenByKey db a.idempotencyKey with
    | some ex =>
      have hex : createToken secret db a now = (ex, db) := by
        simp only [createToken, hfresh]
      rw [hex]
      exact ⟨hinv, hinv ex (List.mem_of_find?_eq_some hfresh)⟩
    | none =>
      obtain ⟨tk, e, heq, -, -, hg, hcm, hn⟩ :=
        createToken_fresh_shape secret db a now hfresh
      rw [heq]
      constructor
      · intro x hx
        show x.grossAmount = x.commissionAmount + x.netAmount
        rcases List.mem_append.mp hx with hx | hx
        · exact hinv x hx
        · rw [List.mem_singleton.mp hx, hg, hcm, hn]
          exact ha
      · show tk.grossAmount = tk.commissionAmount + tk.netAmount
        rw [hg, hcm, hn]
        exact ha
  · intro hinv x hx
    rw [(validateToken_tokens secret db t coach now).1] at hx
    exact hinv x hx
  · intro hinv
    rcases useToken_tokens_shape secret db tid coach ip now with h | ⟨tk, hfind, h⟩
    · intro x hx
      rw [h] at hx
      exact hinv x hx
    · intro x hx
      rw [h] at hx
      exact amountInvariant_map db.tokens tk (markUsed secret now ip tk) hinv
        (List.mem_of_find?_eq_some hfind) rfl rfl rfl x hx
  · intro hinv
    rcases createPayout_tokens_shape secret db tokenId c now with h | ⟨tid2, tk, hfind, h⟩
    · intro x hx
      rw [h] at hx
      exact hinv x hx
    · intro x hx
      rw [h] at hx
      exact amountInvariant_map db.tokens tk (payoutUsedToken secret now tk) hinv
        (List.mem_of_find?_eq_some hfind) rfl rfl rfl x hx

/-- Witness for C8: the concrete breakdown of 10000 at rate 0.12 sums,
the concrete store satisfies the invariant after creation, and it still
does after validate, use and payout. -/
theorem claim_c8_amount_invariant_witness :
    ((calculate 10000 (some 1200) =
        Except.ok { gross := 10000, commissionAmount := 1200, netAmount := 8800, rate := 1200 }) →
      (10000 : Int) = 1200 + 8800) ∧
    AmountInvariant (createToken secretW DB.empty argsW 100).2 ∧
    AmountInvariant (validateToken secretW dbW tokW (some 7) 105).2 ∧
    AmountInvariant (useToken secretW dbW 0 (some 7) (some "3.3.3.3") 105).2 ∧
    AmountInvariant (createPayout secretW dbW (some 0) 7 105).2 := by
  have hinv0 : AmountInvariant DB.empty := by
    intro x hx
    exact absurd hx (by simp [DB.empty])
  have hinvW : AmountInvariant dbW :=
    ((claim_c8_amount_invariant secretW DB.empty argsW 10000 1200
        { gross := 10000, commissionAmount := 1200, netAmount := 8800, rate := 1200 }
        tokW 0 (some 7) (some "3.3.3.3") (some 0) 7 100).2.1 hinv0 (by decide)).1
  refine ⟨?_, ?_, ?_, ?_, ?_⟩
  · intro h
    exact (claim_c8_amount_invariant secretW DB.empty argsW 10000 1200
      { gross := 10000, commissionAmount := 1200, netAmount := 8800, rate := 1200 }
      tokW 0 (some 7) (some "3.3.3.3") (some 0) 7 100).1 h
  · exact ((claim_c8_amount_invariant secretW DB.empty argsW 10000 1200
      { gross := 10000, commissionAmount := 1200, netAmount := 8800, rate := 1200 }
      tokW 0 (some 7) (some "3.3.3.3") (some 0) 7 100).2.1 hinv0 (by decide)).1
  · exact (claim_c8_amount_invariant secretW dbW argsW 10000 1200
      { gross := 10000, commissionAmount := 1200, netAmount := 8800, rate := 1200 }
      tokW 0 (some 7) (some "3.3.3.3") (some 0) 7 105).2.2.1 hinvW
  · exact (claim_c8_amount_invariant secretW dbW argsW 10000 1200
      { gross := 10000, commissionAmount := 1200, netAmount := 8800, rate := 1200 }
      tokW 0 (some 7) (some "3.3.3.3") (some 0) 7 105).2.2.2.1 hinvW
  · exact (claim_c8_amount_invariant secretW dbW argsW 10000 1200
      { gross := 10000, commissionAmount := 1200, netAmount := 8800, rate := 1200 }
      tokW 0 (some 7) (some "3.3.3.3") (some 0) 7 105).2.2.2.2 hinvW

/-- Creation arguments whose amounts do not sum. -/
def argsBad : CreateArgs :=
  { argsW with
    grossAmount := 100
    commissionAmount := 5
    netAmount := 100
    idempotencyKey := "bad" }

/-- Counterexample for C8 as stated: create_token accepts gross 100 with
commission 5 and net 100 — amounts it persists verbatim — so the token it
produces violates gross = commission + net. -/
theorem claim_c8_counterexample :
    (createToken secretW DB.empty argsBad 100).1.grossAmount ≠
      (createToken secretW DB.empty argsBad 100).1.commissionAmount +
      (createToken secretW DB.empty argsBad 100).1.netAmount := by
  decide

end Billing
